import Mathlib

/-!
Verification development for the tuna-simulator reward server
(`src/Assets/Scripts/server/server.py`).

The Python source is shallowly embedded: frames are kept abstract (a type
parameter `α`), on-disk paths are natural numbers, the filesystem is the list
of existing paths, floating-point reals are modelled by rationals, and each
external effect (opening a video, model inference, file deletion) is driven by
explicit outcome fields of an environment structure.  Machine-level binary
floating point is not reproduced: the spec declares bit-exact numerics a
non-goal, so `round` is modelled as exact rational rounding half to even, the
rule Python's `round` implements.
-/

namespace TunaServer

/-! ### Configuration constants (server.py lines 63, 84-85) -/

/-- `MAX_FILE_SIZE = 100 * 1024 * 1024` (server.py line 63). -/
def MAX_FILE_SIZE : Nat := 100 * 1024 * 1024

/-- `VIDEO_CLASS_FRAME_COUNT` defaults to 16 (server.py line 84). -/
def VIDEO_CLASS_FRAME_COUNT : Nat := 16

/-- `VIDEO_CLASS_NAMES = ["simulator", "real"]` (server.py line 85). -/
def VIDEO_CLASS_NAMES : List String := ["simulator", "real"]

/-- The upload handler reads the body in chunks of this many bytes
(`file.read(1024 * 1024)`, server.py line 563). -/
def CHUNK_REQUEST_SIZE : Nat := 1024 * 1024

/-- The `file_size` form field defaults to 0 (`Form(default=0)`, server.py
line 532). -/
def FILE_SIZE_DEFAULT : Int := 0

/-! ### Python `round` on an exact quotient

`int(round(i * max_start / (sequence_count - 1)))` (server.py line 424):
Python rounds half to even.  `roundCore q r b` is the rounding decision given
the Euclidean quotient `q` and remainder `r` of the division by `b`. -/

/-- Rounding decision for the quotient `q` remainder `r` of a division by
`b`: round down when the remainder is below half, up when above half, and to
the even neighbour on a tie. -/
def roundCore (q r b : Nat) : Nat :=
  if 2 * r < b then q
  else if b < 2 * r then q + 1
  else if q % 2 = 0 then q else q + 1

/-- `pyRound a b` is `round(a / b)` under round-half-to-even, the rounding rule
of Python's builtin `round`. -/
def pyRound (a b : Nat) : Nat :=
  roundCore (a / b) (a % b) b

theorem roundCore_ge (q r b : Nat) : q ≤ roundCore q r b := by
  unfold roundCore; split_ifs <;> omega

theorem roundCore_le (q r b : Nat) : roundCore q r b ≤ q + 1 := by
  unfold roundCore; split_ifs <;> omega

theorem roundCore_mono_right (q b : Nat) {r r' : Nat} (h : r ≤ r') :
    roundCore q r b ≤ roundCore q r' b := by
  unfold roundCore; split_ifs <;> omega

theorem roundCore_eq_q_of_lt {q r b : Nat} (h : 2 * r < b) :
    roundCore q r b = q := by
  unfold roundCore; split_ifs <;> omega

theorem pyRound_mono (b : Nat) {a a' : Nat} (h : a ≤ a') :
    pyRound a b ≤ pyRound a' b := by
  unfold pyRound
  have h3 : a / b ≤ a' / b := Nat.div_le_div_right h
  rcases Nat.lt_or_ge (a / b) (a' / b) with hlt | hge
  · calc roundCore (a / b) (a % b) b ≤ a / b + 1 := roundCore_le _ _ _
      _ ≤ a' / b := hlt
      _ ≤ roundCore (a' / b) (a' % b) b := roundCore_ge _ _ _
  · have heq : a / b = a' / b := le_antisymm h3 hge
    have hrr : a % b ≤ a' % b := by
      have h5 : b * (a / b) + a % b ≤ b * (a / b) + a' % b := by
        rw [Nat.div_add_mod a b, heq, Nat.div_add_mod a' b]
        exact h
      exact Nat.le_of_add_le_add_left h5
    rw [heq]
    exact roundCore_mono_right _ _ hrr

theorem pyRound_zero (b : Nat) : pyRound 0 b = 0 := by
  unfold pyRound roundCore
  simp only [Nat.zero_div, Nat.zero_mod]
  split_ifs <;> omega

theorem pyRound_mul_self {b : Nat} (hb : 0 < b) (m : Nat) :
    pyRound (b * m) b = m := by
  unfold pyRound
  rw [Nat.mul_div_cancel_left m hb, Nat.mul_mod_right]
  exact roundCore_eq_q_of_lt (by omega)

theorem pyRound_le_of_le_mul {a b m : Nat} (hb : 0 < b) (h : a ≤ b * m) :
    pyRound a b ≤ m := by
  unfold pyRound
  have hq : a / b ≤ m := by
    have h1 : a / b ≤ b * m / b := Nat.div_le_div_right h
    rwa [Nat.mul_div_cancel_left m hb] at h1
  unfold roundCore
  split_ifs with h1 h2 h3
  · exact hq
  · -- remainder strictly above half: the quotient is strictly below `m`
    have hr : 0 < a % b := by omega
    rcases Nat.lt_or_ge (a / b) m with hlt | hge
    · omega
    · exfalso
      have he : a / b = m := le_antisymm hq hge
      have hdm := Nat.div_add_mod a b
      rw [he] at hdm
      omega
  · exact hq
  · have hr : 0 < a % b := by omega
    rcases Nat.lt_or_ge (a / b) m with hlt | hge
    · omega
    · exfalso
      have he : a / b = m := le_antisymm hq hge
      have hdm := Nat.div_add_mod a b
      rw [he] at hdm
      omega

/-! ### Frame Sampler: `load_video_frame_sequences` (server.py lines 381-436)

A video on disk is modelled as `Option (List α)`: `none` when OpenCV is
unavailable or the capture cannot be opened, `some frames` for the decoded,
resized, colour-converted frame list.  The per-frame resize/convert is folded
into the abstract frame type. -/

/-- Padding of a short video: `processed_frames.extend([padding_frame] * ...)`
with `padding_frame = processed_frames[-1]` (server.py lines 411-414). -/
def pad_short {α : Type} [Inhabited α] (frame_count : Nat) (frames : List α) :
    List α :=
  if frames.length < frame_count then
    frames ++ List.replicate (frame_count - frames.length) frames.getLast!
  else frames

/-- Selection of the window start indices (server.py lines 416-426). -/
def start_indices (total_frames frame_count sequence_count : Nat) : List Nat :=
  if sequence_count ≤ 1 ∨ total_frames ≤ frame_count then [0]
  else
    let max_start := max (total_frames - frame_count) 0
    if sequence_count = 1 ∨ max_start = 0 then [0]
    else
      (List.range sequence_count).map
        (fun i => pyRound (i * max_start) (sequence_count - 1))

/-- One window: `frame_count` consecutive frames from `start`, padded by
repeating the trailing frame when truncated at the end and nonempty
(server.py lines 429-434). -/
def extract_window {α : Type} [Inhabited α] (frames : List α)
    (frame_count start : Nat) : List α :=
  let seq := (frames.drop start).take frame_count
  if seq.length < frame_count ∧ seq.isEmpty = false then
    seq ++ List.replicate (frame_count - seq.length) seq.getLast!
  else seq

/-- `load_video_frame_sequences` (server.py lines 381-436): decode the video,
return `[]` when the capture fails or yields no frames, otherwise pad a short
video with the last frame and cut one window per start index. -/
def load_video_frame_sequences {α : Type} [Inhabited α]
    (video : Option (List α)) (frame_count sequence_count : Nat) :
    List (List α) :=
  match video with
  | none => []
  | some decoded =>
      if decoded.isEmpty then []
      else
        let processed_frames := pad_short frame_count decoded
        (start_indices processed_frames.length frame_count sequence_count).map
          (extract_window processed_frames frame_count)

/-! ### Classification Stage: `classify_segmented_video` (server.py 439-484)

The VideoMAE backend is abstracted by an environment: availability flags for
the guard clauses, an oracle `logits` giving the classifier's output logits
for one frame window, and a function `exp` standing for the exponential used
by `torch.softmax` — kept abstract, with its positivity (the only property the
softmax probabilities need) supplied as a hypothesis where required. -/

/-- Environment of the classification stage. -/
structure ClassifierEnv (α : Type) where
  /-- `TRANSFORMERS_AVAILABLE` (server.py lines 26-32). -/
  transformers_available : Bool
  /-- `torch is not None` (server.py lines 16-19). -/
  torch_available : Bool
  /-- `get_video_classifier_components()` returns without raising
  (server.py lines 453-457). -/
  components_ok : Bool
  /-- no exception outside the per-window scoring occurs inside the guarded
  inference block (server.py lines 459-484). -/
  infer_ok : Bool
  /-- the exponential of `torch.softmax` (server.py line 469). -/
  exp : ℚ → ℚ
  /-- output logits of the classifier for one frame window
  (server.py lines 465-468). -/
  logits : List α → List ℚ

/-- `torch.softmax` over a logit vector: each entry is mapped to its
exponential divided by the sum of all exponentials (server.py line 469). -/
def softmax (e : ℚ → ℚ) (l : List ℚ) : List ℚ :=
  l.map (fun x => e x / (l.map e).sum)

/-- Score of one frame window (server.py lines 465-475): the softmax
probability of the class named "real" when that name occurs in
`VIDEO_CLASS_NAMES`, otherwise the maximum class probability.  `none` models
the index error raised when the probability vector is too short, or taking
the maximum of an empty vector. -/
def window_score {α : Type} (env : ClassifierEnv α) (frames : List α) :
    Option ℚ :=
  let probs := softmax env.exp (env.logits frames)
  if "real" ∈ VIDEO_CLASS_NAMES then
    probs[VIDEO_CLASS_NAMES.indexOf "real"]?
  else probs.max?

/-- The scoring loop (server.py lines 461-475): empty windows are skipped,
and an exception in one window aborts the whole loop (`none`). -/
def score_loop {α : Type} (env : ClassifierEnv α) :
    List (List α) → Option (List ℚ)
  | [] => some []
  | w :: ws =>
      if w.isEmpty then score_loop env ws
      else
        match window_score env w with
        | none => none
        | some s => (score_loop env ws).map (fun rest => s :: rest)

/-- `classify_segmented_video` (server.py lines 439-484), with the decoded
content of each path supplied by the oracle `decode`. -/
def classify_segmented_video {α : Type} [Inhabited α] (env : ClassifierEnv α)
    (decode : Nat → Option (List α)) (video_path : Nat) : ℚ :=
  if ¬(env.transformers_available && env.torch_available) then 0
  else
    let frame_sequences :=
      load_video_frame_sequences (decode video_path) VIDEO_CLASS_FRAME_COUNT 4
    if frame_sequences.isEmpty then 0
    else if ¬env.components_ok then 0
    else if ¬env.infer_ok then 0
    else
      match score_loop env frame_sequences with
      | none => 0
      | some scores =>
          if scores.isEmpty then 0
          else scores.sum / (scores.length : ℚ)

/-- Whether `classify_segmented_video` reaches the call to
`get_video_classifier_components` (server.py line 454), i.e. passes the
availability guard (line 440) and the empty-window guard (line 449). -/
def classifier_invoked {α : Type} [Inhabited α] (env : ClassifierEnv α)
    (decode : Nat → Option (List α)) (video_path : Nat) : Bool :=
  (env.transformers_available && env.torch_available)
    && !(load_video_frame_sequences (decode video_path)
          VIDEO_CLASS_FRAME_COUNT 4).isEmpty

/-! ### Segmentation Stage: `segment_uploaded_video` (server.py 229-356)

Each step that can fail is driven by an outcome field, in the order the
source performs the steps.  The stage returns the path of the rendered
derivative video on success and `none` on every failure; it also threads the
filesystem, because the derivative temp file is created partway through
(server.py line 331) and a later rendering failure abandons it. -/

/-- Environment of the segmentation stage. -/
structure SegEnv (α : Type) where
  /-- `SAM2_AVAILABLE and torch is not None and cv2 is not None`
  (server.py line 230). -/
  sam2_available : Bool
  /-- `get_sam2_components()` returns without raising (server.py 235-238). -/
  components_ok : Bool
  /-- `cv2.VideoCapture(input_path).isOpened()` (server.py 242-245). -/
  video_opens : Bool
  /-- the frames extracted from the capture (server.py 260-276). -/
  frames : List α
  /-- `predictor.init_state` and `reset_state` succeed (server.py 284-285). -/
  init_ok : Bool
  /-- `cv2.imread` of the first frame file succeeds (server.py 287-290). -/
  first_frame_ok : Bool
  /-- the masks proposed by the automatic generator on frame 0, identified by
  their pixel area (server.py line 293). -/
  masks : List Nat
  /-- point registration and mask propagation succeed (server.py 306-329). -/
  prop_ok : Bool
  /-- path of the `NamedTemporaryFile` output video (server.py 331-333). -/
  output_path : Nat
  /-- rendering and releasing the output video succeeds (server.py 335-349). -/
  writer_ok : Bool

/-- `segment_uploaded_video` (server.py lines 229-356): never raises — any
exception at any step yields `none` — and returns the derivative path only
when every step succeeds.  The returned filesystem records that the output
temp file is created before rendering starts, so a rendering failure leaves
it on disk while still returning `none`. -/
def segment_uploaded_video {α : Type} (env : SegEnv α) (input_path : Nat)
    (fs : List Nat) : Option Nat × List Nat :=
  if ¬env.sam2_available then (none, fs)
  else if ¬env.components_ok then (none, fs)
  else if ¬env.video_opens then (none, fs)
  else if env.frames.isEmpty then (none, fs)
  else if ¬env.init_ok then (none, fs)
  else if ¬env.first_frame_ok then (none, fs)
  else if env.masks.isEmpty then (none, fs)
  else if ¬env.prop_ok then (none, fs)
  else
    let fs1 := fs ++ [env.output_path]
    if ¬env.writer_ok then (none, fs1)
    else (some env.output_path, fs1)

/-- `classify_masks_by_area` (server.py lines 214-226): a mask whose area is
at least `background_ratio` of the frame is background, the rest are
objects.  Areas are naturals and the ratio a rational, compared exactly. -/
def classify_masks_by_area (masks : List Nat)
    (frame_width frame_height : Nat) (background_ratio : ℚ) :
    List Nat × List Nat :=
  let total_area := max (frame_width * frame_height) 1
  ((List.range masks.length).filter
      (fun idx => background_ratio ≤ (masks.getD idx 0 : ℚ) / (total_area : ℚ)),
   (List.range masks.length).filter
      (fun idx => ¬(background_ratio ≤ (masks.getD idx 0 : ℚ) / (total_area : ℚ))))

/-! ### Model Registry (server.py lines 87-98, 190-211, 359-378)

Both getters hold a dedicated `threading.Lock` around the whole
check-then-initialize section, so every concurrent execution is a sequential
interleaving of atomic critical sections; the model below is that serialized
trace.  Handles are identified by the value `fresh` the initializer would
produce. -/

/-- Cached globals of one backend plus an initialization counter
(`sam2_predictor`/`sam2_mask_generator`, or
`video_processor`/`video_classifier`; server.py lines 87-98). -/
structure RegistryState where
  predictor : Option Nat
  mask_generator : Option Nat
  init_count : Nat
  deriving DecidableEq, Repr

/-- The critical section of `get_sam2_components` (server.py lines 190-211):
raise when the dependencies are absent, initialize both globals when the
predictor is still `None`, and return the cached pair. -/
def get_sam2_components (available : Bool) (fresh : Nat)
    (s : RegistryState) :
    Except Unit (RegistryState × (Nat × Option Nat)) :=
  if ¬available then Except.error ()
  else
    match s.predictor with
    | some p => Except.ok (s, (p, s.mask_generator))
    | none =>
        let s2 : RegistryState :=
          { predictor := some fresh, mask_generator := some fresh,
            init_count := s.init_count + 1 }
        Except.ok (s2, (fresh, some fresh))

/-- The critical section of `get_video_classifier_components`
(server.py lines 359-378); identical double-checked shape, keyed on
`video_classifier`. -/
def get_video_classifier_components (available : Bool) (fresh : Nat)
    (s : RegistryState) :
    Except Unit (RegistryState × (Nat × Option Nat)) :=
  if ¬available then Except.error ()
  else
    match s.predictor with
    | some p => Except.ok (s, (p, s.mask_generator))
    | none =>
        let s2 : RegistryState :=
          { predictor := some fresh, mask_generator := some fresh,
            init_count := s.init_count + 1 }
        Except.ok (s2, (fresh, some fresh))

/-- A serialized trace of `n` concurrent calls to a registry getter: the
init lock grants the critical sections one at a time, so any interleaving is
some sequence of atomic steps.  Returns the final state and every caller's
received handle. -/
def run_registry_calls
    (get : RegistryState → Except Unit (RegistryState × (Nat × Option Nat))) :
    Nat → RegistryState → RegistryState × List (Except Unit Nat)
  | 0, s => (s, [])
  | n + 1, s =>
      match get s with
      | Except.error _ =>
          let r := run_registry_calls get n s
          (r.1, Except.error () :: r.2)
      | Except.ok sh =>
          let r := run_registry_calls get n sh.1
          (r.1, Except.ok sh.2.1 :: r.2)

/-- The uninitialized registry (`sam2_predictor = None`, server.py 88-90). -/
def registry_start : RegistryState :=
  { predictor := none, mask_generator := none, init_count := 0 }

/-- The registry after one successful initialization producing the handle
`fresh`. -/
def registry_ready (fresh : Nat) : RegistryState :=
  { predictor := some fresh, mask_generator := some fresh, init_count := 1 }

/-! ### Pipeline Orchestrator: `upload_video` (server.py lines 527-641)

The handler is modelled from the moment the request is parsed.  Paths are
naturals, the filesystem is the list of paths that exist, and HTTP failures
are `Except.error`.  Ingestion streams chunks into a fresh temp file; the
analysis pipeline then runs segmentation best-effort, classifies the chosen
target, and the `finally` blocks delete the derivative and the upload. -/

/-- An HTTP error response (`HTTPException`). -/
structure HTTPError where
  status_code : Nat
  deriving DecidableEq, Repr

/-- The response model `UploadResponse` (server.py lines 508-512). -/
structure UploadResponse where
  status : String
  filename : Option String
  episode_number : Option Int
  reward : ℚ
  deriving DecidableEq, Repr

/-- The declared fields of the `UploadResponse` pydantic model, in source
order (server.py lines 508-512). -/
def UploadResponse.fieldNames : List String :=
  ["status", "filename", "episode_number", "reward"]

/-- One result of `await asyncio.wait_for(file.read(1024 * 1024), timeout=10)`
(server.py line 563): either the read timed out, or it delivered `size`
bytes — `size = 0` is the empty chunk that ends the stream. -/
inductive ChunkRead where
  | timeout : ChunkRead
  | data : Nat → ChunkRead
  deriving DecidableEq, Repr

/-- Number of bytes a chunk read delivers. -/
def ChunkRead.size : ChunkRead → Nat
  | ChunkRead.timeout => 0
  | ChunkRead.data n => n

/-- The chunked ingestion loop (server.py lines 560-574), given the running
byte total: a timeout raises 408, an empty chunk breaks, and a total
exceeding `MAX_FILE_SIZE` after a chunk is written raises 413.  Returns the
error (if any) and the total number of bytes written to the temp file. -/
def stream_chunks : List ChunkRead → Nat → Option HTTPError × Nat
  | [], total => (none, total)
  | ChunkRead.timeout :: _, total => (some ⟨408⟩, total)
  | ChunkRead.data 0 :: _, total => (none, total)
  | ChunkRead.data (n + 1) :: rest, total =>
      let total2 := total + (n + 1)
      if MAX_FILE_SIZE < total2 then (some ⟨413⟩, total2)
      else stream_chunks rest total2

/-- `os.remove(p)` wrapped in `try/except` (server.py 612-616, 630-635):
when the deletion succeeds the path is gone, a deletion failure is only
logged and leaves the filesystem unchanged. -/
def remove_file (ok : Bool) (p : Nat) (fs : List Nat) : List Nat :=
  if ok then fs.filter (fun q => decide (q ≠ p)) else fs

/-- Environment of one `upload_video` request. -/
structure UploadEnv (α : Type) where
  /-- outcomes of the segmentation stage. -/
  seg : SegEnv α
  /-- outcomes of the classification stage. -/
  cls : ClassifierEnv α
  /-- decoded content of each path (`cv2.VideoCapture`). -/
  decode : Nat → Option (List α)
  /-- the two `asyncio.to_thread` stage calls return without an unexpected
  exception escaping into the handler's `except` (server.py 588-599). -/
  thread_ok : Bool
  /-- `os.remove` of the segmented derivative succeeds (server.py 612-616). -/
  remove_seg_ok : Bool
  /-- `os.remove` of the uploaded temp file succeeds (server.py 630-635). -/
  remove_tmp_ok : Bool

/-- The analysis pipeline run once ingestion has completed (server.py lines
584-627): segmentation best-effort, classification of the segmented clip when
one was produced and of the raw upload otherwise, any escaped exception
mapped to reward `0.0`, and the `finally` block that logs the score and
deletes the segmented derivative. -/
def run_pipeline {α : Type} [Inhabited α] (env : UploadEnv α)
    (episode_number : Int) (tmp_path : Nat) (fs : List Nat) :
    UploadResponse × List Nat :=
  let step :=
    if env.thread_ok then
      let segr := segment_uploaded_video env.seg tmp_path fs
      let classification_target := (segr.1).getD tmp_path
      ((classify_segmented_video env.cls env.decode classification_target,
        segr.1), segr.2)
    else (((0 : ℚ), (none : Option Nat)), fs)
  let reward_value := step.1.1
  let segmented_path := step.1.2
  let fs2 :=
    match segmented_path with
    | some p => remove_file env.remove_seg_ok p step.2
    | none => step.2
  ({ status := "ok", filename := none,
     episode_number := some episode_number, reward := reward_value }, fs2)

/-- `upload_video` (server.py lines 527-641): the declared-size and
content-type guards, creation of the temporary upload file, the chunked
ingestion loop, the analysis pipeline, and the outer `finally` that deletes
the upload on every path that created it. -/
def upload_video {α : Type} [Inhabited α] (episode_number : Int)
    (file_size : Int) (content_type : Option String)
    (chunks : List ChunkRead) (env : UploadEnv α) (tmp_path : Nat)
    (fs : List Nat) : Except HTTPError UploadResponse × List Nat :=
  if (MAX_FILE_SIZE : Int) < file_size then (Except.error ⟨413⟩, fs)
  else if (match content_type with
           | some ct => !ct.startsWith "video/"
           | none => false) then (Except.error ⟨400⟩, fs)
  else
    let fs1 := fs ++ [tmp_path]
    let streamed := stream_chunks chunks 0
    match streamed.1 with
    | some e => (Except.error e, remove_file env.remove_tmp_ok tmp_path fs1)
    | none =>
        let pr := run_pipeline env episode_number tmp_path fs1
        (Except.ok pr.1, remove_file env.remove_tmp_ok tmp_path pr.2)

/-! ### Concrete fixtures for the closing witnesses -/

/-- A 20-frame decoded video. -/
def sampleFrames : List Nat := List.range 20

/-- A fully available classification backend whose model always answers the
logits `[0, 0]`; its exponential is the constant `1`. -/
def sampleClassifierEnv : ClassifierEnv Nat :=
  { transformers_available := true, torch_available := true,
    components_ok := true, infer_ok := true,
    exp := fun _ => 1, logits := fun _ => [0, 0] }

/-- A segmentation run in which every step succeeds; the derivative is
written to path 9. -/
def sampleSegEnv : SegEnv Nat :=
  { sam2_available := true, components_ok := true, video_opens := true,
    frames := [1], init_ok := true, first_frame_ok := true, masks := [50],
    prop_ok := true, output_path := 9, writer_ok := true }

/-- A segmentation run that fails while rendering the derivative, after the
output temp file was created. -/
def leakSegEnv : SegEnv Nat :=
  { sampleSegEnv with writer_ok := false }

/-- A request in which every stage succeeds and every path decodes to
`sampleFrames`. -/
def sampleUploadEnv : UploadEnv Nat :=
  { seg := sampleSegEnv, cls := sampleClassifierEnv,
    decode := fun _ => some sampleFrames,
    thread_ok := true, remove_seg_ok := true, remove_tmp_ok := true }

/-- Same request, but segmentation fails during rendering. -/
def leakUploadEnv : UploadEnv Nat :=
  { sampleUploadEnv with seg := leakSegEnv }

/-- A segmentation backend whose dependencies are absent. -/
def unavailableSegEnv : SegEnv Nat :=
  { sampleSegEnv with sam2_available := false }

/-- A request whose segmentation dependencies are absent. -/
def unavailableUploadEnv : UploadEnv Nat :=
  { sampleUploadEnv with seg := unavailableSegEnv }

/-- 101 full one-MiB chunks: one MiB beyond the 100 MB limit. -/
def oversizeChunks : List ChunkRead :=
  List.replicate 101 (ChunkRead.data (1024 * 1024))

/-! ### Frame Sampler lemmas -/

theorem pad_short_of_not_lt {α : Type} [Inhabited α] {frame_count : Nat}
    {frames : List α} (h : ¬ frames.length < frame_count) :
    pad_short frame_count frames = frames := by
  simp [pad_short, h]

theorem pad_short_length {α : Type} [Inhabited α] {frame_count : Nat}
    {frames : List α} (h : frames.length ≤ frame_count) :
    (pad_short frame_count frames).length = frame_count := by
  unfold pad_short
  split_ifs with hlt
  · simp only [List.length_append, List.length_replicate]
    omega
  · omega

theorem extract_window_of_le {α : Type} [Inhabited α] {frames : List α}
    {frame_count start : Nat} (h : start + frame_count ≤ frames.length) :
    extract_window frames frame_count start =
      (frames.drop start).take frame_count := by
  have hlen : ((frames.drop start).take frame_count).length = frame_count := by
    simp only [List.length_take, List.length_drop]
    omega
  simp [extract_window, hlen]

theorem start_indices_eq {total frame_count sequence_count : Nat}
    (h1 : frame_count < total) (h2 : 1 < sequence_count) :
    start_indices total frame_count sequence_count =
      (List.range sequence_count).map
        (fun i => pyRound (i * (total - frame_count)) (sequence_count - 1)) := by
  have ha : ¬(sequence_count ≤ 1 ∨ total ≤ frame_count) := by omega
  have hb : ¬(sequence_count = 1 ∨ total - frame_count = 0) := by omega
  simp only [start_indices, Nat.max_eq_left (Nat.zero_le _)]
  rw [if_neg ha, if_neg hb]

theorem load_long_video_eq {α : Type} [Inhabited α] (frames : List α)
    (frame_count sequence_count : Nat) (h1 : frame_count < frames.length)
    (h2 : 1 < sequence_count) :
    load_video_frame_sequences (some frames) frame_count sequence_count =
      ((List.range sequence_count).map
          (fun i => pyRound (i * (frames.length - frame_count))
            (sequence_count - 1))).map
        (fun s => (frames.drop s).take frame_count) := by
  have hne : frames.isEmpty = false := by
    cases frames with
    | nil => simp at h1
    | cons a l => rfl
  simp only [load_video_frame_sequences, hne, Bool.false_eq_true, if_false,
    pad_short_of_not_lt (by omega : ¬ frames.length < frame_count)]
  rw [start_indices_eq h1 h2]
  apply List.map_congr_left
  intro s hs
  obtain ⟨i, hi, rfl⟩ := List.mem_map.mp hs
  have hi' : i < sequence_count := List.mem_range.mp hi
  have hb : 0 < sequence_count - 1 := by omega
  have hstart : pyRound (i * (frames.length - frame_count))
      (sequence_count - 1) ≤ frames.length - frame_count := by
    apply pyRound_le_of_le_mul hb
    exact Nat.mul_le_mul_right _ (by omega)
  exact extract_window_of_le (by omega)

/-- Claim C4: for every decoded frame list with `total_frames > frame_count`
and `window_count > 1`, the sampler returns exactly `window_count` windows,
each of exactly `frame_count` consecutive frames, whose start indices are
`round(i * max_start / (window_count - 1))` for `i` in `0..window_count-1`
with `max_start = total_frames - frame_count`; the start indices are
non-decreasing, begin at 0 and end at `max_start`. -/
theorem sampler_evenly_spaced_windows {α : Type} [Inhabited α]
    (frames : List α) (frame_count sequence_count : Nat)
    (h1 : frame_count < frames.length) (h2 : 1 < sequence_count) :
    load_video_frame_sequences (some frames) frame_count sequence_count =
      ((List.range sequence_count).map
          (fun i => pyRound (i * (frames.length - frame_count))
            (sequence_count - 1))).map
        (fun s => (frames.drop s).take frame_count) ∧
    (load_video_frame_sequences (some frames) frame_count
        sequence_count).length = sequence_count ∧
    (∀ w ∈ load_video_frame_sequences (some frames) frame_count sequence_count,
        w.length = frame_count) ∧
    List.Pairwise (· ≤ ·)
      ((List.range sequence_count).map
        (fun i => pyRound (i * (frames.length - frame_count))
          (sequence_count - 1))) ∧
    ((List.range sequence_count).map
        (fun i => pyRound (i * (frames.length - frame_count))
          (sequence_count - 1)))[0]? = some 0 ∧
    ((List.range sequence_count).map
        (fun i => pyRound (i * (frames.length - frame_count))
          (sequence_count - 1)))[sequence_count - 1]? =
      some (frames.length - frame_count) := by
  have hmain := load_long_video_eq frames frame_count sequence_count h1 h2
  have hb : 0 < sequence_count - 1 := by omega
  refine ⟨hmain, ?_, ?_, ?_, ?_, ?_⟩
  · rw [hmain]; simp
  · intro w hw
    rw [hmain] at hw
    obtain ⟨s, hs, rfl⟩ := List.mem_map.mp hw
    obtain ⟨i, hi, rfl⟩ := List.mem_map.mp hs
    have hi' : i < sequence_count := List.mem_range.mp hi
    have hstart : pyRound (i * (frames.length - frame_count))
        (sequence_count - 1) ≤ frames.length - frame_count := by
      apply pyRound_le_of_le_mul hb
      exact Nat.mul_le_mul_right _ (by omega)
    simp only [List.length_take, List.length_drop]
    omega
  · exact List.Pairwise.map _
      (fun a b hab =>
        pyRound_mono _ (Nat.mul_le_mul_right _ (le_of_lt hab)))
      (List.pairwise_lt_range sequence_count)
  · rw [List.getElem?_map, List.getElem?_range (by omega : 0 < sequence_count)]
    simp [pyRound_zero]
  · rw [List.getElem?_map,
      List.getElem?_range (by omega : sequence_count - 1 < sequence_count)]
    have hlast : pyRound ((sequence_count - 1) * (frames.length - frame_count))
        (sequence_count - 1) = frames.length - frame_count :=
      pyRound_mul_self hb _
    simp [hlast]

/-- Witness for C4: a 20-frame video with `frame_count = 16`,
`window_count = 4`. -/
theorem sampler_evenly_spaced_windows_witness :
    16 < (List.range 20).length ∧
    (load_video_frame_sequences (some (List.range 20)) 16 4).length = 4 :=
  ⟨by decide,
   (sampler_evenly_spaced_windows (List.range 20) 16 4 (by decide)
      (by decide)).2.1⟩

/-- Claim C5: for every nonempty decoded video shorter than the configured
frame count, exactly one window is returned, it starts at index 0, its
length is exactly `frame_count`, and its tail is the original last frame
repeated. -/
theorem sampler_padding_law {α : Type} [Inhabited α] (frames : List α)
    (frame_count sequence_count : Nat) (hne : frames.isEmpty = false)
    (hlt : frames.length < frame_count) :
    load_video_frame_sequences (some frames) frame_count sequence_count =
      [frames ++
        List.replicate (frame_count - frames.length) frames.getLast!] ∧
    (∀ w ∈ load_video_frame_sequences (some frames) frame_count sequence_count,
        w.length = frame_count) := by
  have hpad : pad_short frame_count frames =
      frames ++ List.replicate (frame_count - frames.length)
        frames.getLast! := by
    simp [pad_short, hlt]
  have hlen : (pad_short frame_count frames).length = frame_count :=
    pad_short_length (le_of_lt hlt)
  have hstart : start_indices (pad_short frame_count frames).length
      frame_count sequence_count = [0] := by
    rw [hlen]
    simp [start_indices]
  have hmain : load_video_frame_sequences (some frames) frame_count
      sequence_count = [pad_short frame_count frames] := by
    simp only [load_video_frame_sequences, hne, Bool.false_eq_true, if_false,
      hstart]
    simp only [List.map_cons, List.map_nil]
    rw [extract_window_of_le (by omega)]
    rw [List.drop_zero, List.take_of_length_le (le_of_eq hlen)]
  constructor
  · rw [hmain, hpad]
  · intro w hw
    rw [hmain] at hw
    simp only [List.mem_singleton] at hw
    rw [hw, hlen]

/-- Witness for C5: a 3-frame video with `frame_count = 16`. -/
theorem sampler_padding_law_witness :
    (([7, 8, 9] : List Nat).isEmpty = false ∧
      ([7, 8, 9] : List Nat).length < 16) ∧
    load_video_frame_sequences (some ([7, 8, 9] : List Nat)) 16 4 =
      [[7, 8, 9] ++
        List.replicate (16 - ([7, 8, 9] : List Nat).length)
          ([7, 8, 9] : List Nat).getLast!] :=
  ⟨⟨by decide, by decide⟩,
   (sampler_padding_law ([7, 8, 9] : List Nat) 16 4 (by decide)
      (by decide)).1⟩

/-! ### Classification Stage lemmas -/

theorem softmax_mem_bounds {e : ℚ → ℚ} (he : ∀ x, 0 < e x) {l : List ℚ}
    {p : ℚ} (hp : p ∈ softmax e l) : 0 < p ∧ p ≤ 1 := by
  obtain ⟨x, hx, rfl⟩ := List.mem_map.mp hp
  have hpos : ∀ y ∈ l.map e, (0 : ℚ) ≤ y := by
    intro y hy
    obtain ⟨x', _, rfl⟩ := List.mem_map.mp hy
    exact (he x').le
  have hxS : e x ≤ (l.map e).sum :=
    List.single_le_sum hpos _ (List.mem_map_of_mem e hx)
  have hS : 0 < (l.map e).sum := lt_of_lt_of_le (he x) hxS
  exact ⟨div_pos (he x) hS, (div_le_one hS).mpr hxS⟩

theorem window_score_eq {α : Type} (env : ClassifierEnv α) (w : List α) :
    window_score env w =
      ((env.logits w)[1]?).map
        (fun x => env.exp x / ((env.logits w).map env.exp).sum) := by
  have hmem : "real" ∈ VIDEO_CLASS_NAMES := by decide
  have hidx : VIDEO_CLASS_NAMES.indexOf "real" = 1 := by decide
  simp [window_score, hmem, hidx, softmax, List.getElem?_map]

theorem window_score_bounds {α : Type} {env : ClassifierEnv α}
    (he : ∀ x, 0 < env.exp x) {w : List α} {s : ℚ}
    (h : window_score env w = some s) : 0 ≤ s ∧ s ≤ 1 := by
  unfold window_score at h
  split_ifs at h with hmem
  · have hs : s ∈ softmax env.exp (env.logits w) := List.getElem?_mem h
    have hb := softmax_mem_bounds he hs
    exact ⟨hb.1.le, hb.2⟩
  · have hs : s ∈ softmax env.exp (env.logits w) := List.max?_mem max_choice h
    have hb := softmax_mem_bounds he hs
    exact ⟨hb.1.le, hb.2⟩

theorem score_loop_bounds {α : Type} {env : ClassifierEnv α}
    (he : ∀ x, 0 < env.exp x) {ws : List (List α)} {scores : List ℚ}
    (h : score_loop env ws = some scores) : ∀ s ∈ scores, 0 ≤ s ∧ s ≤ 1 := by
  induction ws generalizing scores with
  | nil =>
      simp only [score_loop, Option.some.injEq] at h
      subst h
      intro s hs
      simp at hs
  | cons w rest ih =>
      simp only [score_loop] at h
      split_ifs at h with hw
      · exact ih h
      · cases hws : window_score env w with
        | none => rw [hws] at h; simp at h
        | some s0 =>
            rw [hws] at h
            cases hrest : score_loop env rest with
            | none => rw [hrest] at h; simp at h
            | some restScores =>
                rw [hrest] at h
                simp only [Option.map_some', Option.some.injEq] at h
                subst h
                intro s hs
                rcases List.mem_cons.mp hs with hs | hs
                · subst hs
                  exact window_score_bounds he hws
                · exact ih hrest s hs

theorem mean_bounds {scores : List ℚ} (h : ∀ s ∈ scores, 0 ≤ s ∧ s ≤ 1)
    (hne : scores ≠ []) :
    0 ≤ scores.sum / (scores.length : ℚ) ∧
      scores.sum / (scores.length : ℚ) ≤ 1 := by
  have hlen : 0 < (scores.length : ℚ) := by
    have hp : 0 < scores.length := List.length_pos.mpr hne
    exact_mod_cast hp
  have hsum0 : 0 ≤ scores.sum := List.sum_nonneg (fun s hs => (h s hs).1)
  have hsum1 : scores.sum ≤ (scores.length : ℚ) := by
    have hc := List.sum_le_card_nsmul scores 1 (fun s hs => (h s hs).2)
    simpa using hc
  exact ⟨div_nonneg hsum0 hlen.le, (div_le_one hlen).mpr hsum1⟩

theorem classify_bounds {α : Type} [Inhabited α] {env : ClassifierEnv α}
    (he : ∀ x, 0 < env.exp x) (decode : Nat → Option (List α)) (p : Nat) :
    0 ≤ classify_segmented_video env decode p ∧
      classify_segmented_video env decode p ≤ 1 := by
  simp only [classify_segmented_video]
  split_ifs with h1 h2 h3 h4
  any_goals exact ⟨le_refl 0, zero_le_one⟩
  cases hloop : score_loop env
      (load_video_frame_sequences (decode p) VIDEO_CLASS_FRAME_COUNT 4) with
  | none => exact ⟨le_refl 0, zero_le_one⟩
  | some scores =>
      by_cases hne : scores.isEmpty = true
      · simp [hne]
      · simp only [if_neg hne]
        exact mean_bounds (score_loop_bounds he hloop)
          (fun hnil => hne (by simp [hnil]))

theorem classify_unavailable_zero {α : Type} [Inhabited α]
    {env : ClassifierEnv α} (decode : Nat → Option (List α)) (p : Nat)
    (h : env.transformers_available = false ∨ env.torch_available = false) :
    classify_segmented_video env decode p = 0 := by
  rcases h with h | h <;> simp [classify_segmented_video, h]

theorem classify_no_windows_zero {α : Type} [Inhabited α]
    {env : ClassifierEnv α} {decode : Nat → Option (List α)} {p : Nat}
    (h : load_video_frame_sequences (decode p) VIDEO_CLASS_FRAME_COUNT 4 =
      ([] : List (List α))) :
    classify_segmented_video env decode p = 0 := by
  simp [classify_segmented_video, h]

theorem classify_mean {α : Type} [Inhabited α] {env : ClassifierEnv α}
    (decode : Nat → Option (List α)) (p : Nat)
    (h1 : env.transformers_available = true) (h2 : env.torch_available = true)
    (h3 : env.components_ok = true) (h4 : env.infer_ok = true)
    {scores : List ℚ}
    (hloop : score_loop env
      (load_video_frame_sequences (decode p) VIDEO_CLASS_FRAME_COUNT 4) =
        some scores)
    (hne : scores ≠ []) :
    classify_segmented_video env decode p =
      scores.sum / (scores.length : ℚ) := by
  have hfs : (load_video_frame_sequences (decode p)
      VIDEO_CLASS_FRAME_COUNT 4).isEmpty = false := by
    cases hl : load_video_frame_sequences (decode p)
        VIDEO_CLASS_FRAME_COUNT 4 with
    | nil =>
        rw [hl] at hloop
        simp only [score_loop, Option.some.injEq] at hloop
        exact absurd hloop.symm hne
    | cons a l => rfl
  have hse : scores.isEmpty = false := by
    cases scores with
    | nil => exact absurd rfl hne
    | cons a l => rfl
  simp [classify_segmented_video, h1, h2, h3, h4, hfs, hloop, hse]

/-- Claim C1: the reward of one classification call is the arithmetic mean
of the per-window scores, where each per-window score is the softmax
probability of the class named "real" when that name occurs in the label set
(otherwise the maximum class probability); the reward always lies in
`[0, 1]`, and it is exactly 0 when the classification backend is unavailable
or zero usable windows are produced. -/
theorem classification_reward_law {α : Type} [Inhabited α]
    (env : ClassifierEnv α) (decode : Nat → Option (List α)) (p : Nat)
    (hexp : ∀ x, 0 < env.exp x) :
    (0 ≤ classify_segmented_video env decode p ∧
      classify_segmented_video env decode p ≤ 1) ∧
    ((env.transformers_available = false ∨ env.torch_available = false) →
      classify_segmented_video env decode p = 0) ∧
    (load_video_frame_sequences (decode p) VIDEO_CLASS_FRAME_COUNT 4 =
        ([] : List (List α)) →
      classify_segmented_video env decode p = 0) ∧
    (∀ scores : List ℚ,
      env.transformers_available = true → env.torch_available = true →
      env.components_ok = true → env.infer_ok = true →
      score_loop env (load_video_frame_sequences (decode p)
          VIDEO_CLASS_FRAME_COUNT 4) = some scores →
      scores ≠ [] →
      classify_segmented_video env decode p =
        scores.sum / (scores.length : ℚ)) ∧
    (∀ w : List α,
      window_score env w =
        ((env.logits w)[1]?).map
          (fun x => env.exp x / ((env.logits w).map env.exp).sum)) ∧
    "real" ∈ VIDEO_CLASS_NAMES ∧ VIDEO_CLASS_NAMES.indexOf "real" = 1 :=
  ⟨classify_bounds hexp decode p,
   classify_unavailable_zero decode p,
   fun h => classify_no_windows_zero h,
   fun _scores h1 h2 h3 h4 hloop hne =>
     classify_mean decode p h1 h2 h3 h4 hloop hne,
   window_score_eq env,
   by decide, by decide⟩

/-- Witness for C1: the fully available sample backend, whose positive
exponential is the constant 1, keeps the reward of the 20-frame sample video
inside the bounds. -/
theorem classification_reward_law_witness :
    (0 ≤ classify_segmented_video sampleClassifierEnv
        (fun _ => some sampleFrames) 0 ∧
      classify_segmented_video sampleClassifierEnv
        (fun _ => some sampleFrames) 0 ≤ 1) ∧
    (sampleClassifierEnv.transformers_available = false ∨
        sampleClassifierEnv.torch_available = false →
      classify_segmented_video sampleClassifierEnv
        (fun _ => some sampleFrames) 0 = 0) :=
  ⟨(classification_reward_law sampleClassifierEnv
      (fun _ => some sampleFrames) 0 (fun _ => one_pos)).1,
   (classification_reward_law sampleClassifierEnv
      (fun _ => some sampleFrames) 0 (fun _ => one_pos)).2.1⟩

/-- Claim C9: a video that cannot be opened or yields zero decoded frames
produces an empty window list, and classification then returns reward 0
without reaching the classifier components. -/
theorem empty_video_zero_reward {α : Type} [Inhabited α]
    (env : ClassifierEnv α) (decode : Nat → Option (List α)) (p : Nat)
    (h : decode p = none ∨ decode p = some ([] : List α)) :
    load_video_frame_sequences (decode p) VIDEO_CLASS_FRAME_COUNT 4 =
      ([] : List (List α)) ∧
    classify_segmented_video env decode p = 0 ∧
    classifier_invoked env decode p = false := by
  have hload : load_video_frame_sequences (decode p)
      VIDEO_CLASS_FRAME_COUNT 4 = ([] : List (List α)) := by
    rcases h with h | h <;> simp [h, load_video_frame_sequences]
  refine ⟨hload, classify_no_windows_zero hload, ?_⟩
  simp [classifier_invoked, hload]

/-- Witness for C9: an unopenable video yields reward 0 with the classifier
untouched. -/
theorem empty_video_zero_reward_witness :
    ((fun (_ : Nat) => (none : Option (List Nat))) 0 = none ∨
      (fun (_ : Nat) => (none : Option (List Nat))) 0 = some []) ∧
    classify_segmented_video sampleClassifierEnv
      (fun _ => (none : Option (List Nat))) 0 = 0 ∧
    classifier_invoked sampleClassifierEnv
      (fun _ => (none : Option (List Nat))) 0 = false :=
  ⟨Or.inl rfl,
   (empty_video_zero_reward sampleClassifierEnv (fun _ => none) 0
      (Or.inl rfl)).2.1,
   (empty_video_zero_reward sampleClassifierEnv (fun _ => none) 0
      (Or.inl rfl)).2.2⟩

/-! ### Segmentation Stage and orchestration -/

set_option maxHeartbeats 1600000 in
/-- Claim C3: the segmentation stage never raises — any exception at any
step, and complete absence of the dependency, yields `none` — and when it
yields no segmented output the orchestrator still classifies the original
uploaded artifact, so segmentation failure never prevents classification. -/
theorem segmentation_failure_never_blocks {α : Type} [Inhabited α]
    (env : UploadEnv α) (senv : SegEnv α) (input_path tmp_path : Nat)
    (episode_number : Int) (fs fs0 : List Nat)
    (hthread : env.thread_ok = true) :
    ((senv.sam2_available = false ∨ senv.components_ok = false ∨
        senv.video_opens = false ∨ senv.frames.isEmpty = true ∨
        senv.init_ok = false ∨ senv.first_frame_ok = false ∨
        senv.masks.isEmpty = true ∨ senv.prop_ok = false ∨
        senv.writer_ok = false) →
      (segment_uploaded_video senv input_path fs0).1 = none) ∧
    ((segment_uploaded_video senv input_path fs0).1 = none ∨
      (segment_uploaded_video senv input_path fs0).1 =
        some senv.output_path) ∧
    ((segment_uploaded_video env.seg tmp_path fs).1 = none →
      (run_pipeline env episode_number tmp_path fs).1.reward =
        classify_segmented_video env.cls env.decode tmp_path) := by
  refine ⟨?_, ?_, ?_⟩
  · intro h
    unfold segment_uploaded_video
    split_ifs <;> simp_all
  · unfold segment_uploaded_video
    split_ifs <;> simp
  · intro hseg
    simp [run_pipeline, hthread, hseg]

/-- Witness for C3: absent segmentation dependencies yield `none` and the
orchestrator classifies the original clip at path 3. -/
theorem segmentation_failure_never_blocks_witness :
    (segment_uploaded_video unavailableSegEnv 3 []).1 = none ∧
    (run_pipeline unavailableUploadEnv 1 3 []).1.reward =
      classify_segmented_video unavailableUploadEnv.cls
        unavailableUploadEnv.decode 3 :=
  ⟨(segmentation_failure_never_blocks unavailableUploadEnv unavailableSegEnv
      3 3 1 [] [] rfl).1 (Or.inl rfl),
   (segmentation_failure_never_blocks unavailableUploadEnv unavailableSegEnv
      3 3 1 [] [] rfl).2.2
     ((segmentation_failure_never_blocks unavailableUploadEnv
        unavailableSegEnv 3 3 1 [] [] rfl).1 (Or.inl rfl))⟩

theorem classify_infer_fail_zero {α : Type} [Inhabited α]
    {env : ClassifierEnv α} (decode : Nat → Option (List α)) (p : Nat)
    (h : env.infer_ok = false) :
    classify_segmented_video env decode p = 0 := by
  simp [classify_segmented_video, h]

theorem classify_components_fail_zero {α : Type} [Inhabited α]
    {env : ClassifierEnv α} (decode : Nat → Option (List α)) (p : Nat)
    (h : env.components_ok = false) :
    classify_segmented_video env decode p = 0 := by
  simp [classify_segmented_video, h]

/-- Counterexample to C2 as stated: the response model returned by the
`/upload/video` handler declares no `analysis_time` field — only `status`,
`filename`, `episode_number` and `reward`. -/
theorem upload_response_lacks_analysis_time :
    "analysis_time" ∉ UploadResponse.fieldNames ∧
    "reward" ∈ UploadResponse.fieldNames := by
  decide

/-- Claim C2 (amended): once ingestion succeeds, the handler always returns
a normal response — never an error — whose reward field carries the computed
float; every internal processing failure (an exception escaping a stage
call, a classification failure) is mapped to reward 0 rather than surfaced.
The analysis time is computed and written to the score log but is not part
of the returned result. -/
theorem upload_always_returns {α : Type} [Inhabited α] (env : UploadEnv α)
    (episode_number file_size : Int) (content_type : Option String)
    (chunks : List ChunkRead) (tmp_path : Nat) (fs : List Nat)
    (hsize : ¬((MAX_FILE_SIZE : Int) < file_size))
    (hct : (match content_type with
            | some ct => !ct.startsWith "video/"
            | none => false) = false)
    (hstream : (stream_chunks chunks 0).1 = none) :
    (upload_video episode_number file_size content_type chunks env tmp_path
        fs).1 =
      Except.ok
        (run_pipeline env episode_number tmp_path (fs ++ [tmp_path])).1 ∧
    (run_pipeline env episode_number tmp_path (fs ++ [tmp_path])).1.status =
      "ok" ∧
    (run_pipeline env episode_number tmp_path
        (fs ++ [tmp_path])).1.episode_number = some episode_number ∧
    (env.thread_ok = false →
      (run_pipeline env episode_number tmp_path
        (fs ++ [tmp_path])).1.reward = 0) ∧
    (env.cls.infer_ok = false →
      (run_pipeline env episode_number tmp_path
        (fs ++ [tmp_path])).1.reward = 0) ∧
    (env.cls.components_ok = false →
      (run_pipeline env episode_number tmp_path
        (fs ++ [tmp_path])).1.reward = 0) := by
  refine ⟨?_, rfl, rfl, ?_, ?_, ?_⟩
  · simp only [upload_video, if_neg hsize, hct, Bool.false_eq_true, if_false]
    rw [hstream]
  · intro h
    simp [run_pipeline, h]
  · intro h
    by_cases ht : env.thread_ok = true
    · simp [run_pipeline, ht, classify_infer_fail_zero env.decode _ h]
    · simp [run_pipeline, ht]
  · intro h
    by_cases ht : env.thread_ok = true
    · simp [run_pipeline, ht, classify_components_fail_zero env.decode _ h]
    · simp [run_pipeline, ht]

/-- Witness for C2 (amended): a well-formed 5-byte upload is answered with
the pipeline's normal response. -/
theorem upload_always_returns_witness :
    (upload_video 1 0 none [ChunkRead.data 5] sampleUploadEnv 3 []).1 =
      Except.ok (run_pipeline sampleUploadEnv 1 3 [3]).1 ∧
    (run_pipeline sampleUploadEnv 1 3 [3]).1.status = "ok" :=
  ⟨(upload_always_returns sampleUploadEnv 1 0 none [ChunkRead.data 5] 3 []
      (by decide) rfl (by decide)).1,
   (upload_always_returns sampleUploadEnv 1 0 none [ChunkRead.data 5] 3 []
      (by decide) rfl (by decide)).2.1⟩

/-! ### Temp-artifact cleanup -/

theorem mem_remove_file {q p : Nat} {l : List Nat}
    (h : q ∈ remove_file true p l) : q ∈ l ∧ q ≠ p := by
  simpa [remove_file, List.mem_filter] using h

set_option maxHeartbeats 1600000 in
theorem segment_fs_cases {α : Type} {senv : SegEnv α} (input_path : Nat)
    (fs : List Nat) (hw : senv.writer_ok = true) :
    segment_uploaded_video senv input_path fs = (none, fs) ∨
      segment_uploaded_video senv input_path fs =
        (some senv.output_path, fs ++ [senv.output_path]) := by
  unfold segment_uploaded_video
  split_ifs <;> simp_all

theorem run_pipeline_snd {α : Type} [Inhabited α] (env : UploadEnv α)
    (episode_number : Int) (tmp_path : Nat) (fs : List Nat) :
    (run_pipeline env episode_number tmp_path fs).2 =
      if env.thread_ok then
        (match (segment_uploaded_video env.seg tmp_path fs).1 with
         | some p =>
             remove_file env.remove_seg_ok p
               (segment_uploaded_video env.seg tmp_path fs).2
         | none => (segment_uploaded_video env.seg tmp_path fs).2)
      else fs := by
  by_cases ht : env.thread_ok = true <;> simp [run_pipeline, ht]

theorem run_pipeline_fs_subset {α : Type} [Inhabited α] {env : UploadEnv α}
    (episode_number : Int) (tmp_path : Nat) (fs : List Nat)
    (hw : env.seg.writer_ok = true) (hrs : env.remove_seg_ok = true) :
    ∀ q ∈ (run_pipeline env episode_number tmp_path fs).2, q ∈ fs := by
  intro q hq
  rw [run_pipeline_snd] at hq
  by_cases ht : env.thread_ok = true
  · rw [if_pos ht] at hq
    rcases segment_fs_cases tmp_path fs hw with hc | hc
    · rw [hc] at hq
      exact hq
    · rw [hc, hrs] at hq
      have hmem := mem_remove_file hq
      rcases List.mem_append.mp hmem.1 with h | h
      · exact h
      · exact absurd (List.mem_singleton.mp h) hmem.2
  · rw [if_neg ht] at hq
    exact hq

theorem run_pipeline_fst_indep {α : Type} [Inhabited α] (env : UploadEnv α)
    (r1 r2 : Bool) (episode_number : Int) (tmp_path : Nat) (fs : List Nat) :
    (run_pipeline { env with remove_seg_ok := r1, remove_tmp_ok := r2 }
        episode_number tmp_path fs).1 =
      (run_pipeline env episode_number tmp_path fs).1 := rfl

/-- Counterexample to C6 as stated: when segmentation fails while rendering
its derivative (after the derivative temp file, path 9, was created), the
handler still returns normally, but path 9 exists after the call returns. -/
theorem leaked_segmented_artifact :
    (upload_video 1 0 none [ChunkRead.data 5] leakUploadEnv 3 []).2 =
      [9] := by
  decide

/-- Claim C6 (amended): when the deletions succeed and segmentation does not
fail after creating its derivative, every temp artifact created during the
call (the uploaded temp file and any segmented derivative) is gone after the
call returns, on every success and failure path; deletion outcomes are only
logged and never change the returned response. -/
theorem cleanup_spec {α : Type} [Inhabited α] (env : UploadEnv α)
    (episode_number file_size : Int) (content_type : Option String)
    (chunks : List ChunkRead) (tmp_path : Nat) (fs : List Nat)
    (hrs : env.remove_seg_ok = true) (hrt : env.remove_tmp_ok = true)
    (hw : env.seg.writer_ok = true) :
    (∀ q ∈ (upload_video episode_number file_size content_type chunks env
        tmp_path fs).2, q ∈ fs) ∧
    (∀ r1 r2 : Bool,
      (upload_video episode_number file_size content_type chunks
        { env with remove_seg_ok := r1, remove_tmp_ok := r2 }
        tmp_path fs).1 =
      (upload_video episode_number file_size content_type chunks env
        tmp_path fs).1) := by
  constructor
  · intro q hq
    simp only [upload_video] at hq
    split_ifs at hq with h1 h2
    · exact hq
    · exact hq
    · cases hs : (stream_chunks chunks 0).1 with
      | some err =>
          rw [hs] at hq
          rw [hrt] at hq
          have hmem := mem_remove_file hq
          rcases List.mem_append.mp hmem.1 with h | h
          · exact h
          · exact absurd (List.mem_singleton.mp h) hmem.2
      | none =>
          rw [hs] at hq
          rw [hrt] at hq
          have hmem := mem_remove_file hq
          have hsub := run_pipeline_fs_subset episode_number tmp_path
            (fs ++ [tmp_path]) hw hrs _ hmem.1
          rcases List.mem_append.mp hsub with h | h
          · exact h
          · exact absurd (List.mem_singleton.mp h) hmem.2
  · intro r1 r2
    by_cases h1 : (MAX_FILE_SIZE : Int) < file_size
    · simp [upload_video, h1]
    · by_cases h2 : (match content_type with
          | some ct => !ct.startsWith "video/"
          | none => false) = true
      · simp [upload_video, h1, h2]
      · simp only [upload_video, if_neg h1, h2, Bool.false_eq_true, if_false]
        cases hs : (stream_chunks chunks 0).1 with
        | some err => rfl
        | none =>
            simp only []
            exact congrArg Except.ok
              (run_pipeline_fst_indep env r1 r2 episode_number tmp_path
                (fs ++ [tmp_path]))

/-- Witness for C6 (amended): for the all-successful sample request the
response is unchanged when both deletions fail. -/
theorem cleanup_spec_witness :
    (upload_video 1 0 none [ChunkRead.data 5]
        { sampleUploadEnv with
          remove_seg_ok := false, remove_tmp_ok := false } 3 []).1 =
      (upload_video 1 0 none [ChunkRead.data 5] sampleUploadEnv 3 []).1 :=
  (cleanup_spec sampleUploadEnv 1 0 none [ChunkRead.data 5] 3 []
    rfl rfl rfl).2 false false

/-! ### Ingestion guards and streamed size enforcement -/

/-- Claim C7: an upload whose declared `file_size` exceeds the configured
maximum is rejected with 413 before any temporary file is created and before
any inference runs — the filesystem is untouched and no reward is
computed. -/
theorem oversize_declared_rejected {α : Type} [Inhabited α]
    (env : UploadEnv α) (episode_number file_size : Int)
    (content_type : Option String) (chunks : List ChunkRead)
    (tmp_path : Nat) (fs : List Nat)
    (h : (MAX_FILE_SIZE : Int) < file_size) :
    upload_video episode_number file_size content_type chunks env tmp_path
      fs = (Except.error ⟨413⟩, fs) := by
  simp [upload_video, h]

/-- Witness for C7: a declared size of 100 MB + 1 byte is rejected with the
filesystem untouched. -/
theorem oversize_declared_rejected_witness :
    upload_video 1 (100 * 1024 * 1024 + 1) none [ChunkRead.data 5]
      sampleUploadEnv 3 [] = (Except.error ⟨413⟩, []) :=
  oversize_declared_rejected sampleUploadEnv 1 (100 * 1024 * 1024 + 1) none
    [ChunkRead.data 5] 3 [] (by decide)

theorem stream_chunks_total_le {K : Nat} :
    ∀ (chunks : List ChunkRead) (total : Nat),
      (∀ c ∈ chunks, c.size ≤ K) → total ≤ MAX_FILE_SIZE →
      (stream_chunks chunks total).2 ≤ MAX_FILE_SIZE + K := by
  intro chunks
  induction chunks with
  | nil =>
      intro total _ ht
      simpa [stream_chunks] using le_trans ht (Nat.le_add_right _ _)
  | cons c rest ih =>
      intro total h ht
      cases c with
      | timeout =>
          simpa [stream_chunks] using le_trans ht (Nat.le_add_right _ _)
      | data n =>
          cases n with
          | zero =>
              simpa [stream_chunks] using le_trans ht (Nat.le_add_right _ _)
          | succ m =>
              have hc : m + 1 ≤ K := by
                have hcm := h _ (List.mem_cons_self _ _)
                simpa [ChunkRead.size] using hcm
              simp only [stream_chunks]
              split_ifs with hover
              · simp only []
                omega
              · exact ih _ (fun c hcr => h c (List.mem_cons_of_mem _ hcr))
                  (by omega)

theorem stream_chunks_mid_abort :
    ∀ (chunks : List ChunkRead) (total : Nat),
      (stream_chunks chunks total).1 = some ⟨413⟩ →
      MAX_FILE_SIZE < (stream_chunks chunks total).2 := by
  intro chunks
  induction chunks with
  | nil => intro total h; simp [stream_chunks] at h
  | cons c rest ih =>
      intro total h
      cases c with
      | timeout => simp [stream_chunks] at h
      | data n =>
          cases n with
          | zero => simp [stream_chunks] at h
          | succ m =>
              simp only [stream_chunks] at h ⊢
              split_ifs at h ⊢ with hover
              · simpa using hover
              · exact ih _ h

/-- Claim C10: the upload size limit is ultimately enforced on the streamed
bytes: the declared `file_size` field defaults to 0, so an omitted or
understated declaration passes the up-front check, the stream is aborted
with 413 only when the accumulated byte count exceeds the maximum after a
chunk is written, and at most the maximum plus one 1 MiB chunk is ever
written to the temporary file. -/
theorem streamed_size_enforcement {α : Type} [Inhabited α]
    (env : UploadEnv α) (episode_number file_size : Int)
    (chunks : List ChunkRead) (tmp_path : Nat) (fs : List Nat) :
    ((∀ c ∈ chunks, c.size ≤ CHUNK_REQUEST_SIZE) →
      (stream_chunks chunks 0).2 ≤ MAX_FILE_SIZE + CHUNK_REQUEST_SIZE) ∧
    ((stream_chunks chunks 0).1 = some ⟨413⟩ →
      MAX_FILE_SIZE < (stream_chunks chunks 0).2) ∧
    ¬((MAX_FILE_SIZE : Int) < FILE_SIZE_DEFAULT) ∧
    (file_size ≤ (MAX_FILE_SIZE : Int) →
      (stream_chunks chunks 0).1 = some ⟨413⟩ →
      upload_video episode_number file_size none chunks env tmp_path fs =
        (Except.error ⟨413⟩,
          remove_file env.remove_tmp_ok tmp_path (fs ++ [tmp_path]))) := by
  refine ⟨fun h => stream_chunks_total_le chunks 0 h (Nat.zero_le _),
    stream_chunks_mid_abort chunks 0, by decide, ?_⟩
  intro hsize habort
  simp only [upload_video, if_neg (not_lt.mpr hsize)]
  rw [habort]
  simp

/-- Witness for C10: 101 full 1 MiB chunks abort mid-stream with 413 after
the temp file was created, even with the declared size left at its
default 0. -/
theorem streamed_size_enforcement_witness :
    (stream_chunks oversizeChunks 0).1 = some ⟨413⟩ ∧
    upload_video 1 FILE_SIZE_DEFAULT none oversizeChunks sampleUploadEnv 3
        [] =
      (Except.error ⟨413⟩,
        remove_file sampleUploadEnv.remove_tmp_ok 3 ([] ++ [3])) :=
  ⟨by decide,
   (streamed_size_enforcement sampleUploadEnv 1 FILE_SIZE_DEFAULT
      oversizeChunks 3 []).2.2.2 (by decide) (by decide)⟩

/-! ### Model Registry -/

theorem run_registry_stable
    (get : RegistryState → Except Unit (RegistryState × (Nat × Option Nat)))
    (hget : ∀ s p, s.predictor = some p →
      get s = Except.ok (s, (p, s.mask_generator))) :
    ∀ (n : Nat) (s : RegistryState) (p : Nat), s.predictor = some p →
      run_registry_calls get n s = (s, List.replicate n (Except.ok p)) := by
  intro n
  induction n with
  | zero => intro s p _; rfl
  | succ m ih =>
      intro s p hp
      simp only [run_registry_calls, hget s p hp]
      rw [ih s p hp]
      simp [List.replicate_succ]

theorem get_sam2_components_stable (fresh : Nat) :
    ∀ (s : RegistryState) (p : Nat), s.predictor = some p →
      get_sam2_components true fresh s =
        Except.ok (s, (p, s.mask_generator)) := by
  intro s p hp
  simp [get_sam2_components, hp]

theorem get_video_classifier_components_stable (fresh : Nat) :
    ∀ (s : RegistryState) (p : Nat), s.predictor = some p →
      get_video_classifier_components true fresh s =
        Except.ok (s, (p, s.mask_generator)) := by
  intro s p hp
  simp [get_video_classifier_components, hp]

/-- Claim C8: for each backend, a serialized trace of concurrent calls to
the registry getter — the init lock grants the critical sections one at a
time — performs exactly one initialization, every caller receives a handle
to the same model instance, and after the first successful call the getter
is idempotent, returning the already-created handle. -/
theorem registry_single_initialization (n fresh fresh2 : Nat)
    (hn : 1 ≤ n) :
    ((run_registry_calls (get_sam2_components true fresh) n
        registry_start).1.init_count = 1 ∧
      (∀ h ∈ (run_registry_calls (get_sam2_components true fresh) n
          registry_start).2, h = Except.ok fresh) ∧
      get_sam2_components true fresh2
          (run_registry_calls (get_sam2_components true fresh) n
            registry_start).1 =
        Except.ok ((run_registry_calls (get_sam2_components true fresh) n
          registry_start).1, (fresh, some fresh))) ∧
    ((run_registry_calls (get_video_classifier_components true fresh) n
        registry_start).1.init_count = 1 ∧
      (∀ h ∈ (run_registry_calls (get_video_classifier_components true fresh)
          n registry_start).2, h = Except.ok fresh) ∧
      get_video_classifier_components true fresh2
          (run_registry_calls (get_video_classifier_components true fresh) n
            registry_start).1 =
        Except.ok ((run_registry_calls
          (get_video_classifier_components true fresh) n
            registry_start).1, (fresh, some fresh))) := by
  obtain ⟨m, rfl⟩ : ∃ m, n = m + 1 := ⟨n - 1, by omega⟩
  have hstep1 : get_sam2_components true fresh registry_start
      = Except.ok (registry_ready fresh, (fresh, some fresh)) := rfl
  have hstep2 : get_video_classifier_components true fresh registry_start
      = Except.ok (registry_ready fresh, (fresh, some fresh)) := rfl
  have hready : (registry_ready fresh).predictor = some fresh := rfl
  have hrun1 : run_registry_calls (get_sam2_components true fresh) (m + 1)
      registry_start =
      (registry_ready fresh,
        Except.ok fresh :: List.replicate m (Except.ok fresh)) := by
    simp only [run_registry_calls, hstep1]
    rw [run_registry_stable (get_sam2_components true fresh)
      (get_sam2_components_stable fresh) m (registry_ready fresh) fresh
      hready]
  have hrun2 : run_registry_calls
      (get_video_classifier_components true fresh) (m + 1) registry_start =
      (registry_ready fresh,
        Except.ok fresh :: List.replicate m (Except.ok fresh)) := by
    simp only [run_registry_calls, hstep2]
    rw [run_registry_stable (get_video_classifier_components true fresh)
      (get_video_classifier_components_stable fresh) m (registry_ready fresh)
      fresh hready]
  refine ⟨⟨?_, ?_, ?_⟩, ⟨?_, ?_, ?_⟩⟩
  · rw [hrun1]; rfl
  · rw [hrun1]
    intro h hh
    rcases List.mem_cons.mp hh with hh | hh
    · exact hh
    · exact List.eq_of_mem_replicate hh
  · rw [hrun1]
    exact get_sam2_components_stable fresh2 _ fresh hready
  · rw [hrun2]; rfl
  · rw [hrun2]
    intro h hh
    rcases List.mem_cons.mp hh with hh | hh
    · exact hh
    · exact List.eq_of_mem_replicate hh
  · rw [hrun2]
    exact get_video_classifier_components_stable fresh2 _ fresh hready

/-- Witness for C8: three serialized calls to each getter initialize
once and all return handle 7. -/
theorem registry_single_initialization_witness :
    (run_registry_calls (get_sam2_components true 7) 3
        registry_start).1.init_count = 1 ∧
    (run_registry_calls (get_video_classifier_components true 7) 3
        registry_start).1.init_count = 1 :=
  ⟨(registry_single_initialization 3 7 8 (by decide)).1.1,
   (registry_single_initialization 3 7 8 (by decide)).2.1⟩

end TunaServer
